import Mathlib

/-
Shallow embedding of the two analysis scripts of the behavior repository
(get_DKO_data.py and get_rotation_data.py).  Floating point values are
embedded as exact rationals; NaN entries of a tracking table are embedded
as the none case of Option.  Metrics that take a square root in the source
are embedded as real numbers through Real.sqrt.
-/

namespace Behavior

/-- One frame of a tracking table: none stands for a row whose coordinates
are NaN (animal not detected).  In the idTracker tables the two coordinates
of a row are NaN together, so a frame is modelled as one optional pair. -/
abbrev Frame := Option (ℚ × ℚ)

/-- A trajectory table: the ordered list of frames of one video. -/
abbrev Trajectory := List Frame

/-- A circle, as the tuple (cx, cy, r) returned by make_circle in
get_DKO_data.py line 63. -/
structure Circle where
  cx : ℚ
  cy : ℚ
  r : ℚ

/-! Open field metrics, get_DKO_data.py lines 66 to 84. -/

/-- get_DKO_data.py line 76: the test
(x - cx)**2 + (y - cy)**2 <= center_r**2, with center_r = r / sqrt(3) from
line 66; in exact arithmetic center_r**2 equals r**2 / 3.  A frame with NaN
coordinates makes the float comparison False, embedded as the none case. -/
def insideCenter (c : Circle) : Frame → Bool
  | none => false
  | some p => decide ((p.1 - c.cx) ^ 2 + (p.2 - c.cy) ^ 2 ≤ c.r ^ 2 / 3)

/-- get_DKO_data.py lines 74 to 77: the inside_count accumulation loop. -/
def inside_count (c : Circle) (t : Trajectory) : ℕ :=
  t.foldl (fun acc f => if insideCenter c f then acc + 1 else acc) 0

/-- get_DKO_data.py line 78: inside_count / 14400 * 100, the value appended
to center_props and stored in the OF percent center column. -/
def center_prop (c : Circle) (t : Trajectory) : ℚ :=
  (inside_count c t : ℚ) / 14400 * 100

/-- Specification side: the number of frames whose non-missing point lies
in the concentric sub-circle of one third the area. -/
def specCenterCount (c : Circle) (t : Trajectory) : ℕ :=
  (t.filterMap id).countP
    (fun p => decide ((p.1 - c.cx) ^ 2 + (p.2 - c.cy) ^ 2 ≤ c.r ^ 2 / 3))

/-! Light-dark metrics, get_DKO_data.py lines 96 to 125. -/

/-- get_DKO_data.py line 100: total_frames = 29 * 600. -/
def total_frames : ℕ := 29 * 600

/-- get_DKO_data.py line 106: pd.read_table with nrows=total_frames keeps
at most total_frames rows of the trajectory file. -/
def readTable (rows : Trajectory) : Trajectory := rows.take total_frames

/-- dropna: the rows of the table whose coordinates are not NaN. -/
def dropna (t : Trajectory) : List (ℚ × ℚ) := t.filterMap id

/-- get_DKO_data.py line 111: percent_light = len(dropna) / total_frames.
The summary column LD percent light stores percent_light * 100. -/
def percent_light (t : Trajectory) : ℚ :=
  ((dropna t).length : ℚ) / (total_frames : ℚ)

/-- get_DKO_data.py line 96. -/
def px_perim : ℚ := 218 + 224 + 427 + 444

/-- get_DKO_data.py line 97: 2 * (0.3048 + 0.1524) metres. -/
def in_perim : ℚ := 2 * (3048 / 10000 + 1524 / 10000)

/-- get_DKO_data.py line 98. -/
def conversion : ℚ := in_perim / px_perim

/-- The sum inside math.dist(X1.dropna(), Y1.dropna()) at line 114: the two
dropna columns are passed to dist as two whole vectors, so dist squares the
componentwise differences x_i - y_i and sums them over the detected
frames. -/
def ldSumSq (t : Trajectory) : ℚ :=
  ((dropna t).map (fun p => (p.1 - p.2) ^ 2)).sum

/-- get_DKO_data.py line 114: the LD distance column value,
dist of the two dropna columns, times the conversion constant. -/
noncomputable def ldDistance (t : Trajectory) : ℝ :=
  Real.sqrt ((ldSumSq t : ℚ) : ℝ) * ((conversion : ℚ) : ℝ)

/-- Specification side: straight line distance between the first and the
last non-missing coordinate pair, scaled by the conversion constant. -/
noncomputable def firstLastDistance (t : Trajectory) : ℝ :=
  match dropna t with
  | [] => 0
  | p :: ps =>
      Real.sqrt ((((p.1 - (ps.getLastD p).1) ^ 2
        + (p.2 - (ps.getLastD p).2) ^ 2 : ℚ)) : ℝ) * ((conversion : ℚ) : ℝ)

/-- Specification side: the dropna X1 column viewed as one point of the
euclidean space whose dimension is the number of detected frames. -/
noncomputable def colX (t : Trajectory) : EuclideanSpace ℝ (Fin (dropna t).length) :=
  fun i => (((dropna t).get i).1 : ℝ)

/-- Specification side: the dropna Y1 column viewed as one point of the
euclidean space whose dimension is the number of detected frames. -/
noncomputable def colY (t : Trajectory) : EuclideanSpace ℝ (Fin (dropna t).length) :=
  fun i => (((dropna t).get i).2 : ℝ)

/-- Python type tags taken by the variable previous in the transition loop
of get_DKO_data.py lines 116 to 124: previous starts as the raw float
trajectories X1 index 0; current is the int 1 on a NaN frame and a one
character string on a detected frame. -/
inductive PyKind
  | flt
  | intk
  | strk
deriving DecidableEq

/-- Kind of the variable current at a frame (lines 120 and 121). -/
def statusKind (o : Option ℚ) : PyKind :=
  match o with
  | none => PyKind.intk
  | some _ => PyKind.strk

/-- Lines 118 to 124: the enumeration loop from the second frame on,
carrying the type of previous and the accumulated count. -/
def transLoop : List (Option ℚ) → PyKind → ℕ → ℕ
  | [], _, acc => acc
  | o :: rest, prev, acc =>
      transLoop rest (statusKind o) (if statusKind o ≠ prev then acc + 1 else acc)

/-- Lines 116 to 125: previous starts as the raw float at index 0, the loop
skips frame 0 and counts the frames where type(current) differs from
type(previous).  The source would raise on an empty column when indexing
position 0; the empty case is mapped to 0. -/
def trans_count (xs : List (Option ℚ)) : ℕ :=
  match xs with
  | [] => 0
  | _ :: rest => transLoop rest PyKind.flt 0

/-- Specification side: the number of indices i with 1 <= i < n at which
the missing status differs between frame i-1 and frame i. -/
def specTransCount (xs : List (Option ℚ)) : ℕ :=
  (xs.zip xs.tail).countP (fun p => p.1.isNone != p.2.isNone)

/-! Timestamp duration parser, get_DKO_data.py lines 142 to 148.  The
source calls datetime.strptime with format H:M:S.f and then keeps only the
minute, second and microsecond fields in a timedelta.  The strptime field
patterns are 2[0-3]|[0-1]d|d for the hour, [0-5]d|d for the minute,
6[0-1]|[0-5]d|d for the second and one to six digits for the fraction;
since every field is followed by a non-digit delimiter or the end of the
string, regex backtracking never changes the outcome and the greedy
deterministic readers below are equivalent. -/

/-- Numeric value of a digit character. -/
def digitVal (c : Char) : ℕ := c.toNat - 48

/-- Reader for the strptime hour field. -/
def hourRe : List Char → Option (ℕ × List Char)
  | c1 :: c2 :: rest =>
      if c1 = '2' ∧ '0' ≤ c2 ∧ c2 ≤ '3' then some (20 + digitVal c2, rest)
      else if ('0' ≤ c1 ∧ c1 ≤ '1') ∧ c2.isDigit then
        some (10 * digitVal c1 + digitVal c2, rest)
      else if c1.isDigit then some (digitVal c1, c2 :: rest)
      else none
  | [c1] => if c1.isDigit then some (digitVal c1, []) else none
  | [] => none

/-- Reader for the strptime minute field. -/
def minuteRe : List Char → Option (ℕ × List Char)
  | c1 :: c2 :: rest =>
      if ('0' ≤ c1 ∧ c1 ≤ '5') ∧ c2.isDigit then
        some (10 * digitVal c1 + digitVal c2, rest)
      else if c1.isDigit then some (digitVal c1, c2 :: rest)
      else none
  | [c1] => if c1.isDigit then some (digitVal c1, []) else none
  | [] => none

/-- Reader for the strptime second field. -/
def secondRe : List Char → Option (ℕ × List Char)
  | c1 :: c2 :: rest =>
      if c1 = '6' ∧ '0' ≤ c2 ∧ c2 ≤ '1' then some (60 + digitVal c2, rest)
      else if ('0' ≤ c1 ∧ c1 ≤ '5') ∧ c2.isDigit then
        some (10 * digitVal c1 + digitVal c2, rest)
      else if c1.isDigit then some (digitVal c1, c2 :: rest)
      else none
  | [c1] => if c1.isDigit then some (digitVal c1, []) else none
  | [] => none

/-- Reader for the strptime fraction field: one to six digits, scaled to
microseconds, and the string must end there since strptime rejects
unconsumed input. -/
def fracLoop : List Char → ℕ → ℕ → Option ℕ
  | [], acc, k => if 1 ≤ k then some (acc * 10 ^ (6 - k)) else none
  | c :: rest, acc, k =>
      if c.isDigit ∧ k < 6 then fracLoop rest (10 * acc + digitVal c) (k + 1)
      else none

/-- Literal delimiter of the strptime format. -/
def expectChar (c : Char) : List Char → Option (List Char)
  | d :: rest => if d = c then some rest else none
  | [] => none

/-- Lines 143 to 145 on the character list: strptime with format
H:M:S.f followed by timedelta(minutes, seconds, microseconds); the parsed
hour field is dropped because the timedelta is built without it. -/
def parseDurationChars (cs : List Char) : Option ℚ :=
  (hourRe cs).bind fun p1 =>
  (expectChar ':' p1.2).bind fun r1 =>
  (minuteRe r1).bind fun p2 =>
  (expectChar ':' p2.2).bind fun r2 =>
  (secondRe r2).bind fun p3 =>
  (expectChar '.' p3.2).bind fun r3 =>
  (fracLoop r3 0 0).bind fun micro =>
  some ((p2.1 : ℚ) * 60 + (p3.1 : ℚ) + (micro : ℚ) / 1000000)

/-- Lines 143 to 145: total seconds computed from one duration cell, with
none standing for the ValueError raised by strptime on a malformed cell. -/
def parseDuration (s : String) : Option ℚ :=
  parseDurationChars s.data

/-- Two digit zero padded decimal rendering, for stating which strings are
well formed timestamps. -/
def pad2 (n : ℕ) : List Char :=
  [Nat.digitChar (n / 10), Nat.digitChar (n % 10)]

/-- Six digit zero padded decimal rendering of a microsecond count. -/
def pad6 (n : ℕ) : List Char :=
  [Nat.digitChar (n / 100000 % 10), Nat.digitChar (n / 10000 % 10),
   Nat.digitChar (n / 1000 % 10), Nat.digitChar (n / 100 % 10),
   Nat.digitChar (n / 10 % 10), Nat.digitChar (n % 10)]

/-- Character list of the canonical timestamp HH:MM:SS.ffffff. -/
def fmtChars (h m s micro : ℕ) : List Char :=
  pad2 h ++ (':' :: (pad2 m ++ (':' :: (pad2 s ++ ('.' :: pad6 micro)))))

/-- The canonical timestamp string HH:MM:SS.ffffff. -/
def fmtTimestamp (h m s micro : ℕ) : String :=
  ⟨fmtChars h m s micro⟩

/-! Self-grooming metrics, get_DKO_data.py lines 151 and 152. -/

/-- Python slice 1::2 of a column: every second element starting at
index 1. -/
def everyOther : List ℚ → List ℚ
  | [] => []
  | [_] => []
  | _ :: b :: rest => b :: everyOther rest

/-- get_DKO_data.py line 151: sum of the duration column sliced by 1::2. -/
def sg_duration (l : List ℚ) : ℚ := (everyOther l).sum

/-- get_DKO_data.py line 152: len of the duration column sliced by 1::2. -/
def sg_bouts (l : List ℚ) : ℕ := (everyOther l).length

/-! Summary table, get_DKO_data.py lines 84, 101 to 135. -/

/-- One row of SUMdf: the subject key and the task columns. -/
structure Row where
  subj : String
  ofCenter : ℚ
  ofDist : ℚ
  ldLight : ℚ
  ldDist : ℝ
  ldTrans : ℕ
  sgDur : ℚ
  sgBouts : ℕ

/-- get_DKO_data.py line 84: a summary row created by the open field
phase; columns added by later phases start at 0. -/
def ofRow (name : String) (center distm : ℚ) : Row :=
  { subj := name, ofCenter := center, ofDist := distm,
    ldLight := 0, ldDist := 0, ldTrans := 0, sgDur := 0, sgBouts := 0 }

/-- The loc assignment pattern SUMdf.loc with Subj equal to name: apply an
update to every row whose subject matches, leave the others unchanged. -/
def applyAt (name : String) (f : Row → Row) (T : List Row) : List Row :=
  T.map fun r => if r.subj = name then f r else r

/-- get_DKO_data.py line 101: the three LD columns initialized to 0. -/
def ldInit (r : Row) : Row :=
  { r with ldLight := 0, ldDist := 0, ldTrans := 0 }

/-- get_DKO_data.py lines 112, 114, 125: the three LD column assignments
for one matched subject, computed from its trajectory table. -/
noncomputable def ldAssign (t : Trajectory) (r : Row) : Row :=
  { r with
    ldLight := percent_light t * 100,
    ldDist := ldDistance t,
    ldTrans := trans_count (t.map (Option.map Prod.fst)) }

/-- get_DKO_data.py lines 101 to 125: initialize the LD columns to 0, then
fold over the discovered subject folders, assigning the LD metrics of each
trajectory to the matching row.  The folders of LDpath2 (mice that never
left the dark chamber, lines 127 to 130) never touch SUMdf, so they simply
do not occur in the update list. -/
noncomputable def ldPhase (ups : List (String × Trajectory)) (T : List Row) : List Row :=
  ups.foldl (fun acc u => applyAt u.1 (ldAssign (readTable u.2)) acc) (T.map ldInit)

/-- get_DKO_data.py line 135: the two SG columns initialized to 0. -/
def sgInit (r : Row) : Row :=
  { r with sgDur := 0, sgBouts := 0 }

/-- get_DKO_data.py lines 151 and 152: the SG column assignments for one
matched subject, computed from its parsed duration column. -/
def sgAssign (durs : List ℚ) (r : Row) : Row :=
  { r with sgDur := sg_duration durs, sgBouts := sg_bouts durs }

/-- get_DKO_data.py lines 135 to 152: initialize the SG columns to 0, then
fold over the grooming files, assigning the SG metrics to the matching
row. -/
def sgPhase (ups : List (String × List ℚ)) (T : List Row) : List Row :=
  ups.foldl (fun acc u => applyAt u.1 (sgAssign u.2) acc) (T.map sgInit)

/-- Pointwise residue of a fold of applyAt steps: the conditional updates
seen by one row. -/
def applyUps {τ : Type} (f : String × τ → Row → Row)
    (ups : List (String × τ)) (r : Row) : Row :=
  ups.foldl (fun r u => if r.subj = u.1 then f u r else r) r

/-! Helper lemmas. -/

lemma foldl_count_aux (c : Circle) (t : Trajectory) (n : ℕ) :
    t.foldl (fun acc f => if insideCenter c f then acc + 1 else acc) n
      = n + t.countP (insideCenter c) := by
  induction t generalizing n with
  | nil => simp
  | cons f t ih =>
      by_cases h : insideCenter c f
      · simp [List.countP_cons, h, ih]
        omega
      · simp [List.countP_cons, h, ih]

lemma inside_count_eq (c : Circle) (t : Trajectory) :
    inside_count c t = specCenterCount c t := by
  unfold inside_count specCenterCount
  rw [foldl_count_aux]
  simp only [Nat.zero_add]
  induction t with
  | nil => rfl
  | cons f t ih =>
      cases f with
      | none => simpa [List.countP_cons, insideCenter] using ih
      | some p => simp [List.countP_cons, insideCenter, ih]

lemma everyOther_sum : ∀ l : List ℚ,
    (everyOther l).sum
      = ∑ i ∈ Finset.range l.length, if i % 2 = 1 then l.getD i 0 else 0
  | [] => by simp [everyOther]
  | [a] => by simp [everyOther]
  | a :: b :: t => by
      have ih := everyOther_sum t
      simp only [everyOther, List.sum_cons, List.length_cons]
      rw [Finset.sum_range_succ', Finset.sum_range_succ']
      have hmod : ∀ x : ℕ, (x + 1 + 1) % 2 = x % 2 := fun x => by omega
      simp [List.getD_cons_succ, List.getD_cons_zero, hmod, ih]
      ring

lemma everyOther_length : ∀ l : List ℚ,
    (everyOther l).length = (List.range l.length).countP (fun i => i % 2 == 1)
  | [] => by simp [everyOther]
  | [a] => by simp [everyOther, List.range_succ]
  | a :: b :: t => by
      have ih := everyOther_length t
      simp only [everyOther, List.length_cons]
      rw [show t.length + 1 + 1 = t.length + 1 + 1 from rfl,
        List.range_succ, List.countP_append, List.range_succ,
        List.countP_append, ih]
      rcases Nat.mod_two_eq_zero_or_one t.length with h | h
      · have h1 : (t.length + 1) % 2 = 1 := by omega
        simp [List.countP_cons, h, h1]
      · have h1 : (t.length + 1) % 2 = 0 := by omega
        simp [List.countP_cons, h, h1]

lemma listSumSq_eq (l : List (ℚ × ℚ)) :
    (((l.map (fun p => (p.1 - p.2) ^ 2)).sum : ℚ) : ℝ)
      = ∑ i : Fin l.length, (((l.get i).1 : ℝ) - ((l.get i).2 : ℝ)) ^ 2 := by
  induction l with
  | nil => simp
  | cons p l ih =>
      simp only [List.map_cons, List.sum_cons, List.length_cons,
        Fin.sum_univ_succ, List.get_cons_zero, List.get_cons_succ]
      push_cast
      push_cast at ih
      rw [ih]
      exact congrArg _ (Finset.sum_congr rfl fun i _ => rfl)

lemma colDist (t : Trajectory) :
    dist (colX t) (colY t) = Real.sqrt ((ldSumSq t : ℚ) : ℝ) := by
  rw [EuclideanSpace.dist_eq]
  congr 1
  rw [show ((ldSumSq t : ℚ) : ℝ)
      = ∑ i : Fin (dropna t).length,
          ((((dropna t).get i).1 : ℝ) - (((dropna t).get i).2 : ℝ)) ^ 2
    from listSumSq_eq (dropna t)]
  apply Finset.sum_congr rfl
  intro i _
  rw [Real.dist_eq, sq_abs]
  rfl

lemma digitChar_isDigit {d : ℕ} (h : d < 10) :
    (Nat.digitChar d).isDigit = true := by
  interval_cases d <;> rfl

lemma digitVal_digitChar {d : ℕ} (h : d < 10) :
    digitVal (Nat.digitChar d) = d := by
  interval_cases d <;> rfl

lemma expectChar_cons_self (c : Char) (r : List Char) :
    expectChar c (c :: r) = some r := by
  simp [expectChar]

lemma hourRe_pad2 {h : ℕ} (hh : h ≤ 23) (r : List Char) :
    hourRe (pad2 h ++ r) = some (h, r) := by
  interval_cases h <;> rfl

lemma minuteRe_pad2 {m : ℕ} (hm : m ≤ 59) (r : List Char) :
    minuteRe (pad2 m ++ r) = some (m, r) := by
  interval_cases m <;> rfl

lemma secondRe_pad2 {s : ℕ} (hs : s ≤ 59) (r : List Char) :
    secondRe (pad2 s ++ r) = some (s, r) := by
  interval_cases s <;> rfl

lemma fracLoop_pad6 {n : ℕ} (hn : n < 1000000) :
    fracLoop (pad6 n) 0 0 = some n := by
  have d1 : n / 100000 % 10 < 10 := Nat.mod_lt _ (by norm_num)
  have d2 : n / 10000 % 10 < 10 := Nat.mod_lt _ (by norm_num)
  have d3 : n / 1000 % 10 < 10 := Nat.mod_lt _ (by norm_num)
  have d4 : n / 100 % 10 < 10 := Nat.mod_lt _ (by norm_num)
  have d5 : n / 10 % 10 < 10 := Nat.mod_lt _ (by norm_num)
  have d6 : n % 10 < 10 := Nat.mod_lt _ (by norm_num)
  simp [pad6, fracLoop, digitChar_isDigit d1, digitChar_isDigit d2,
    digitChar_isDigit d3, digitChar_isDigit d4, digitChar_isDigit d5,
    digitChar_isDigit d6, digitVal_digitChar d1, digitVal_digitChar d2,
    digitVal_digitChar d3, digitVal_digitChar d4, digitVal_digitChar d5,
    digitVal_digitChar d6]
  omega

lemma parseDuration_fmt (h m s micro : ℕ) (hh : h ≤ 23) (hm : m ≤ 59)
    (hs : s ≤ 59) (hmic : micro < 1000000) :
    parseDuration (fmtTimestamp h m s micro)
      = some ((m : ℚ) * 60 + (s : ℚ) + (micro : ℚ) / 1000000) := by
  show parseDurationChars (fmtChars h m s micro) = _
  unfold fmtChars parseDurationChars
  simp only [hourRe_pad2 hh, Option.some_bind, expectChar_cons_self,
    minuteRe_pad2 hm, secondRe_pad2 hs, fracLoop_pad6 hmic]

lemma foldl_applyAt {τ : Type} (f : String × τ → Row → Row)
    (ups : List (String × τ)) (T : List Row) :
    ups.foldl (fun acc u => applyAt u.1 (f u) acc) T = T.map (applyUps f ups) := by
  induction ups generalizing T with
  | nil =>
      simp only [List.foldl_nil]
      have : applyUps f [] = fun r => r := rfl
      rw [this, List.map_id']
  | cons u rest ih =>
      simp only [List.foldl_cons]
      rw [ih]
      unfold applyAt
      rw [List.map_map]
      rfl

lemma applyUps_proj {τ α : Type} (f : String × τ → Row → Row) (π : Row → α)
    (hf : ∀ u r, π (f u r) = π r) (ups : List (String × τ)) :
    ∀ r : Row, π (applyUps f ups r) = π r := by
  induction ups with
  | nil => intro r; rfl
  | cons u rest ih =>
      intro r
      unfold applyUps
      simp only [List.foldl_cons]
      by_cases h : r.subj = u.1
      · rw [if_pos h]
        have h2 := ih (f u r)
        unfold applyUps at h2
        rw [h2, hf]
      · rw [if_neg h]
        have h2 := ih r
        unfold applyUps at h2
        exact h2

lemma applyUps_not_mem {τ : Type} (f : String × τ → Row → Row)
    (ups : List (String × τ)) (r : Row) (h : r.subj ∉ ups.map Prod.fst) :
    applyUps f ups r = r := by
  induction ups with
  | nil => rfl
  | cons u rest ih =>
      simp only [List.map_cons, List.mem_cons, not_or] at h
      unfold applyUps
      simp only [List.foldl_cons]
      rw [if_neg h.1]
      have h2 := ih h.2
      unfold applyUps at h2
      exact h2

lemma pipeline_eq (T : List Row) (ldUps : List (String × Trajectory))
    (sgUps : List (String × List ℚ)) :
    sgPhase sgUps (ldPhase ldUps T)
      = T.map (fun r =>
          applyUps (fun u => sgAssign u.2) sgUps
            (sgInit (applyUps (fun u => ldAssign (readTable u.2)) ldUps
              (ldInit r)))) := by
  unfold ldPhase sgPhase
  rw [foldl_applyAt, foldl_applyAt]
  simp only [List.map_map]
  rfl

lemma pipeRow_subj (ldUps : List (String × Trajectory))
    (sgUps : List (String × List ℚ)) (r : Row) :
    (applyUps (fun u => sgAssign u.2) sgUps
        (sgInit (applyUps (fun u => ldAssign (readTable u.2)) ldUps
          (ldInit r)))).subj = r.subj := by
  rw [applyUps_proj (fun u => sgAssign u.2) Row.subj (fun u x => rfl) sgUps,
    show ∀ x : Row, (sgInit x).subj = x.subj from fun x => rfl,
    applyUps_proj (fun u => ldAssign (readTable u.2)) Row.subj (fun u x => rfl)
      ldUps]
  rfl

lemma pipeRow_ofCenter (ldUps : List (String × Trajectory))
    (sgUps : List (String × List ℚ)) (r : Row) :
    (applyUps (fun u => sgAssign u.2) sgUps
        (sgInit (applyUps (fun u => ldAssign (readTable u.2)) ldUps
          (ldInit r)))).ofCenter = r.ofCenter := by
  rw [applyUps_proj (fun u => sgAssign u.2) Row.ofCenter (fun u x => rfl) sgUps,
    show ∀ x : Row, (sgInit x).ofCenter = x.ofCenter from fun x => rfl,
    applyUps_proj (fun u => ldAssign (readTable u.2)) Row.ofCenter
      (fun u x => rfl) ldUps]
  rfl

lemma pipeRow_ofDist (ldUps : List (String × Trajectory))
    (sgUps : List (String × List ℚ)) (r : Row) :
    (applyUps (fun u => sgAssign u.2) sgUps
        (sgInit (applyUps (fun u => ldAssign (readTable u.2)) ldUps
          (ldInit r)))).ofDist = r.ofDist := by
  rw [applyUps_proj (fun u => sgAssign u.2) Row.ofDist (fun u x => rfl) sgUps,
    show ∀ x : Row, (sgInit x).ofDist = x.ofDist from fun x => rfl,
    applyUps_proj (fun u => ldAssign (readTable u.2)) Row.ofDist
      (fun u x => rfl) ldUps]
  rfl

/-! Claim theorems. -/

/-- C1: For every open-field trajectory, the OF percent center metric
equals 100 times the number of frames whose non-missing point lies in the
concentric sub-circle of one third the area of the enclosing circle,
divided by the fixed expected frame count 14400; frames with missing
coordinates are excluded from the inside count but the denominator stays
the fixed 14400. -/
theorem center_prop_eq_count_div_fixed (c : Circle) (t : Trajectory) :
    center_prop c t = 100 * (specCenterCount c t : ℚ) / 14400 := by
  unfold center_prop
  rw [inside_count_eq]
  ring

/-- C2 evidence: the loop initializes previous to the raw float at index 0
while current is an int or a str, so the comparison at frame 1 always sees
a type change: two detected frames with no status change count 1
transition instead of 0, and the sequence present, present, missing,
missing, present counts 3 instead of its 2 status-change boundaries. -/
theorem trans_count_phantom_first_transition :
    trans_count [some 0, some 0] = 1 ∧ specTransCount [some 0, some 0] = 0 ∧
      trans_count [some 0, some 0, none, none, some 0] = 3 ∧
        specTransCount [some 0, some 0, none, none, some 0] = 2 := by
  decide

/-- C3 counterexample: on a trajectory with a single detected frame at
point (3, 0), the first and last non-missing coordinate pair coincide, so
the claimed straight-line displacement is 0; the code instead passes the
whole dropna X1 column and the whole dropna Y1 column to math.dist as two
vectors and returns a nonzero value. -/
theorem ldDistance_not_first_last :
    ldDistance [some (3, 0)] ≠ firstLastDistance [some (3, 0)] := by
  have h1 : ldDistance [some (3, 0)] = 3 * ((conversion : ℚ) : ℝ) := by
    unfold ldDistance
    rw [show ldSumSq [some (3, 0)] = 9 by
      unfold ldSumSq
      rw [show dropna [some ((3 : ℚ), (0 : ℚ))] = [((3 : ℚ), (0 : ℚ))] from rfl]
      norm_num]
    rw [show (((9 : ℚ) : ℝ)) = (3 : ℝ) ^ 2 by norm_num,
      Real.sqrt_sq (by norm_num : (0 : ℝ) ≤ 3)]
  have h2 : firstLastDistance [some (3, 0)] = 0 := by
    unfold firstLastDistance
    rw [show dropna [some ((3 : ℚ), (0 : ℚ))] = [((3 : ℚ), (0 : ℚ))] from rfl]
    norm_num [List.getLastD]
  rw [h1, h2]
  have hc : (0 : ℚ) < conversion := by
    norm_num [conversion, in_perim, px_perim]
  exact mul_ne_zero (by norm_num) (by exact_mod_cast ne_of_gt hc)

/-- C3 amended: the LD distance column equals the euclidean distance
between the dropna X1 column and the dropna Y1 column viewed as two points
of an n dimensional euclidean space (n the number of detected frames),
scaled by the pixel-to-meter conversion constant; it is not the
displacement between the first and last detected positions. -/
theorem ldDistance_eq_column_vector_dist (t : Trajectory) :
    ldDistance t = dist (colX t) (colY t) * ((conversion : ℚ) : ℝ) := by
  rw [colDist]
  rfl

/-- C4 counterexample: with the enclosing circle of radius 2 at the
origin, a trajectory of 14401 frames at the origin (one frame more than
the fixed denominator; the open-field reader has no row cap) makes the OF
percent center metric exceed 100. -/
theorem center_prop_above_100 :
    100 < center_prop ⟨0, 0, 2⟩ (List.replicate 14401 (some (0, 0))) := by
  have h : inside_count ⟨0, 0, 2⟩ (List.replicate 14401 (some (0, 0))) = 14401 := by
    unfold inside_count
    rw [foldl_count_aux, List.countP_replicate]
    norm_num [insideCenter]
  unfold center_prop
  rw [h]
  norm_num

/-- C4 amended: for every trajectory of at most 14400 frames (the expected
recording length used as the fixed denominator), the OF percent center
metric lies in the closed interval from 0 to 100. -/
theorem center_prop_in_range (c : Circle) (t : Trajectory)
    (h : t.length ≤ 14400) :
    0 ≤ center_prop c t ∧ center_prop c t ≤ 100 := by
  have h1 : inside_count c t ≤ t.length := by
    unfold inside_count
    rw [foldl_count_aux]
    simpa using List.countP_le_length (insideCenter c)
  have hk : (inside_count c t : ℚ) ≤ 14400 := by
    exact_mod_cast le_trans h1 h
  constructor
  · unfold center_prop
    positivity
  · unfold center_prop
    rw [div_mul_eq_mul_div, div_le_iff₀ (by norm_num)]
    nlinarith [hk]

/-- C4 witness: the amended bound evaluated on a three frame trajectory. -/
theorem center_prop_in_range_witness :
    (List.replicate 3 (some ((0 : ℚ), (0 : ℚ))) : Trajectory).length ≤ 14400 ∧
      (0 ≤ center_prop ⟨0, 0, 2⟩ (List.replicate 3 (some (0, 0))) ∧
        center_prop ⟨0, 0, 2⟩ (List.replicate 3 (some (0, 0))) ≤ 100) :=
  ⟨by decide, center_prop_in_range ⟨0, 0, 2⟩ _ (by decide)⟩

/-- C5: for every grooming score table, the SG duration is the sum of the
durations at the odd indices and the SG bouts value is the count of the
odd indices, as on the example table with durations 5, 10, 3, 20, 2, 15. -/
theorem sg_metrics_odd_indices (l : List ℚ) :
    (sg_duration l
        = ∑ i ∈ Finset.range l.length, if i % 2 = 1 then l.getD i 0 else 0) ∧
      sg_bouts l = (List.range l.length).countP (fun i => i % 2 == 1) ∧
      sg_duration [5, 10, 3, 20, 2, 15] = 45 ∧
      sg_bouts [5, 10, 3, 20, 2, 15] = 3 :=
  ⟨everyOther_sum l, everyOther_length l,
    by norm_num [sg_duration, everyOther], by decide⟩

/-- C6 counterexample: the string 01:00:05.000000 does not match the
pattern with hours field 00, yet the parser accepts it and returns 5
seconds instead of failing with a parse error. -/
theorem parseDuration_accepts_nonzero_hours :
    parseDuration "01:00:05.000000" ≠ none ∧
      parseDuration "01:00:05.000000" = some 5 := by
  have hs : ("01:00:05.000000" : String) = fmtTimestamp 1 0 5 0 := by decide
  rw [hs, parseDuration_fmt 1 0 5 0 (by norm_num) (by norm_num) (by norm_num)
    (by norm_num)]
  exact ⟨by simp, by norm_num⟩

/-- C6 amended: for every well formed string 00:MM:SS.ffffff the parser
returns minutes times 60 plus seconds plus the fractional part, and
malformed input such as a string without colons fails with a parse error;
but failure is decided by the lenient strptime pattern, not by the HH
equal 00 pattern: strings with a nonzero valid hours field are accepted
with the hours discarded. -/
theorem parseDuration_zero_hour_spec :
    (∀ m s micro : ℕ, m ≤ 59 → s ≤ 59 → micro < 1000000 →
        parseDuration (fmtTimestamp 0 m s micro)
          = some ((m : ℚ) * 60 + (s : ℚ) + (micro : ℚ) / 1000000)) ∧
      parseDuration "90.5" = none := by
  constructor
  · intro m s micro hm hs hmic
    exact parseDuration_fmt 0 m s micro (by norm_num) hm hs hmic
  · decide

/-- C6 witness: the amended statement evaluated at 00:01:30.500000, which
parses to 90.5 seconds. -/
theorem parseDuration_zero_hour_witness :
    ((1 : ℕ) ≤ 59 ∧ (30 : ℕ) ≤ 59 ∧ (500000 : ℕ) < 1000000) ∧
      parseDuration (fmtTimestamp 0 1 30 500000)
        = some ((1 : ℚ) * 60 + (30 : ℚ) + (500000 : ℚ) / 1000000) :=
  ⟨by norm_num,
    parseDuration_zero_hour_spec.1 1 30 500000 (by norm_num) (by norm_num)
      (by norm_num)⟩

/-- C9: the parser silently discards the hours field: every well formed
string HH:MM:SS.ffffff with a valid hours field parses successfully to
minutes times 60 plus seconds plus the fractional part, independent of the
hours value, because the timedelta at line 144 is built from the minute,
second and microsecond fields only. -/
theorem parseDuration_discards_hours (h m s micro : ℕ) (hh : h ≤ 23)
    (hm : m ≤ 59) (hs : s ≤ 59) (hmic : micro < 1000000) :
    parseDuration (fmtTimestamp h m s micro)
      = some ((m : ℚ) * 60 + (s : ℚ) + (micro : ℚ) / 1000000) :=
  parseDuration_fmt h m s micro hh hm hs hmic

/-- C9 witness: the statement evaluated at 02:10:07.250000, whose nonzero
hours field is accepted and ignored, giving 607.25 seconds. -/
theorem parseDuration_discards_hours_witness :
    ((2 : ℕ) ≤ 23 ∧ (10 : ℕ) ≤ 59 ∧ (7 : ℕ) ≤ 59 ∧ (250000 : ℕ) < 1000000) ∧
      parseDuration (fmtTimestamp 2 10 7 250000)
        = some ((10 : ℚ) * 60 + (7 : ℚ) + (250000 : ℚ) / 1000000) :=
  ⟨by norm_num,
    parseDuration_discards_hours 2 10 7 250000 (by norm_num) (by norm_num)
      (by norm_num) (by norm_num)⟩

/-- C8: once created, a summary row is never deleted: the later LD and SG
phases keep the subject column of the table unchanged row for row, leave
the previously filled open-field columns untouched, and a subject matched
by no LD folder (such as a light-dark subject that never left the dark
chamber) still carries the 0 the LD columns were initialized with after
the whole pipeline. -/
theorem summary_rows_persist (T : List Row)
    (ldUps : List (String × Trajectory)) (sgUps : List (String × List ℚ)) :
    ((sgPhase sgUps (ldPhase ldUps T)).map Row.subj = T.map Row.subj) ∧
      ((sgPhase sgUps (ldPhase ldUps T)).map (fun r => (r.ofCenter, r.ofDist))
        = T.map (fun r => (r.ofCenter, r.ofDist))) ∧
      (∀ r ∈ sgPhase sgUps (ldPhase ldUps T),
        r.subj ∉ ldUps.map Prod.fst →
          r.ldLight = 0 ∧ r.ldDist = 0 ∧ r.ldTrans = 0) := by
  rw [pipeline_eq]
  refine ⟨?_, ?_, ?_⟩
  · rw [List.map_map]
    congr 1
    funext r
    exact pipeRow_subj ldUps sgUps r
  · rw [List.map_map]
    congr 1
    funext r
    simp only [Function.comp_apply, Prod.mk.injEq]
    exact ⟨pipeRow_ofCenter ldUps sgUps r, pipeRow_ofDist ldUps sgUps r⟩
  · intro r hr hnot
    rcases List.mem_map.mp hr with ⟨r0, hr0mem, rfl⟩
    rw [pipeRow_subj] at hnot
    have hA := applyUps_not_mem (fun u => ldAssign (readTable u.2)) ldUps
      (ldInit r0) hnot
    refine ⟨?_, ?_, ?_⟩ <;> rw [hA]
    · rw [applyUps_proj (fun u => sgAssign u.2) Row.ldLight (fun u x => rfl)
        sgUps]
      rfl
    · rw [applyUps_proj (fun u => sgAssign u.2) Row.ldDist (fun u x => rfl)
        sgUps]
      rfl
    · rw [applyUps_proj (fun u => sgAssign u.2) Row.ldTrans (fun u x => rfl)
        sgUps]
      rfl

/-- C8 witness: a table with the single subject A, an LD update list for
the unrelated subject B and an empty SG update list; the row of A keeps 0
in the three LD columns. -/
theorem summary_rows_persist_witness :
    ((sgInit (ldInit (ofRow "A" 1 2))).subj
        ∉ ([("B", ([] : Trajectory))].map Prod.fst)) ∧
      ((sgInit (ldInit (ofRow "A" 1 2))).ldLight = 0 ∧
        (sgInit (ldInit (ofRow "A" 1 2))).ldDist = 0 ∧
        (sgInit (ldInit (ofRow "A" 1 2))).ldTrans = 0) :=
  ⟨by decide,
    (summary_rows_persist [ofRow "A" 1 2] [("B", [])] []).2.2
      (sgInit (ldInit (ofRow "A" 1 2)))
      (List.mem_singleton.mpr rfl)
      (by decide)⟩

/-- C10: for every input trajectory file, the LD percent light column
value lies between 0 and 100, because the reader keeps at most
total_frames rows, so the count of fully detected frames never exceeds the
fixed denominator. -/
theorem percent_light_in_range (rows : Trajectory) :
    0 ≤ percent_light (readTable rows) * 100 ∧
      percent_light (readTable rows) * 100 ≤ 100 := by
  have h1 : (dropna (readTable rows)).length ≤ total_frames := by
    calc (dropna (readTable rows)).length ≤ (readTable rows).length :=
          List.length_filterMap_le _ _
      _ ≤ total_frames := by
          unfold readTable
          rw [List.length_take]
          exact min_le_left _ _
  have hk : ((dropna (readTable rows)).length : ℚ) ≤ (total_frames : ℚ) := by
    exact_mod_cast h1
  constructor
  · unfold percent_light
    positivity
  · unfold percent_light
    rw [div_mul_eq_mul_div, div_le_iff₀ (by norm_num [total_frames])]
    nlinarith [hk]

end Behavior
